import Mathlib

/-!
Shallow embedding of the consumer/producer orchestration layer of
`w_pika/RabbitMQ.py` (class `RabbitMQ`), together with theorems settling
the behavioural claims about it.

Python dictionaries are modelled as association lists with first-match
lookup and replace-or-append assignment; Python object identity (which
drives `set` membership for function objects and the `is` comparison on
header dicts) is modelled with explicit numeric object ids; exceptions
are modelled with `Except` over an exception-kind type.
-/

namespace WPika

/-- Exception kinds that can arise in the embedded code.  `exc n` stands
for an arbitrary user/middleware exception distinct from the named ones. -/
inductive PyErr where
  | attrError
  | typeError
  | indexError
  | assertError
  | amqpConnError
  | exc (n : Nat)
deriving DecidableEq, Repr

/-! ### Python dict as association list (string keys) -/

/-- Python `d.get(k)`: first-match lookup in a Python dict modelled as an
association list. -/
def dictGet {α : Type} (d : List (String × α)) (k : String) : Option α :=
  match d with
  | [] => none
  | (k1, v) :: rest => if k1 = k then some v else dictGet rest k

/-- Python `k in d`: dict key membership. -/
def hasKey {α : Type} (d : List (String × α)) (k : String) : Bool :=
  (dictGet d k).isSome

/-- Python `d[k] = v`: replace the value at an existing key, else append. -/
def dictSet {α : Type} (d : List (String × α)) (k : String) (v : α) :
    List (String × α) :=
  match d with
  | [] => [(k, v)]
  | (k1, v1) :: rest =>
      if k1 = k then (k1, v) :: rest else (k1, v1) :: dictSet rest k v

/-! ### Delivery metadata and headers -/

/-- One entry of the `x-death` dead-letter history header: a broker table
whose `routing-keys` field (when present) lists the original routing keys. -/
structure XDeathEntry where
  routingKeys : Option (List String)
deriving DecidableEq, Repr

/-- A header value: either an ordinary string header or the `x-death`
dead-letter history (a list of tables). -/
inductive HVal where
  | str (s : String)
  | deaths (l : List XDeathEntry)
deriving DecidableEq, Repr

/-- Delivery metadata, `pika.spec.Basic.Deliver`. -/
structure Deliver where
  deliveryTag : Nat
  redelivered : Bool
  routingKey : String
deriving DecidableEq, Repr

/-- Message properties, `pika.spec.BasicProperties`, as seen by the consumer callback:
`headers` is `None` or a dict. -/
structure Props where
  headers : Option (List (String × HVal))
deriving DecidableEq, Repr

/-- Effective routing-key resolution at the top of the consumer `callback`:

```
routing_key = method.routing_key
if getattr(props, "headers", None) and props.headers.get("x-death"):
    x_death_props = props.headers.get("x-death")[0]
    routing_key = x_death_props.get("routing-keys")[0]
```

`None[0]` raises `TypeError`, `[][0]` raises `IndexError`, and indexing a
string then calling `.get` raises `AttributeError`. -/
def resolveRoutingKey (method : Deliver) (props : Props) : Except PyErr String :=
  match props.headers with
  | none => .ok method.routingKey
  | some hs =>
      if hs = [] then .ok method.routingKey
      else
        match dictGet hs "x-death" with
        | none => .ok method.routingKey
        | some (.str s) =>
            if s = "" then .ok method.routingKey else .error .attrError
        | some (.deaths []) => .ok method.routingKey
        | some (.deaths (e :: _)) =>
            match e.routingKeys with
            | none => .error .typeError
            | some [] => .error .indexError
            | some (k :: _) => .ok k

/-- The immutable per-delivery envelope `RabbitConsumerMessage` built in
the callback (`RabbitConsumerMessage(routing_key, body, self.body_parser(body),
method, props)`). -/
structure ConsumerMessage where
  routingKey : String
  rawBody : String
  parsedBody : String
  method : Deliver
  props : Props
deriving DecidableEq, Repr

/-- Envelope construction inside the callback `try` block: resolve the
effective routing key, parse the body, package the message. -/
def buildEnvelope (bodyParse : String → Except PyErr String)
    (method : Deliver) (props : Props) (body : String) :
    Except PyErr ConsumerMessage := do
  let rk ← resolveRoutingKey method props
  let parsed ← bodyParse body
  pure ⟨rk, body, parsed, method, props⟩

/-- Broker/framework actions the callback can perform, in order. -/
inductive Action where
  | ack (tag : Nat)
  | reject (tag : Nat) (requeue : Bool)
  | errorCallback (queueName : String) (dlqName : Option String)
      (tag : Nat) (body : String) (err : PyErr)
deriving DecidableEq, Repr

/-- Arguments handed to the user's `on_message_error_callback`:
`(queue_name, dead_letter_queue_name, method, props, body, err)`. -/
structure ErrCbArgs where
  queueName : String
  dlqName : Option String
  method : Deliver
  props : Props
  body : String
  err : PyErr
deriving Repr

/-- Result of one run of the per-delivery callback: the broker/framework
actions performed, and whether an exception escaped the callback. -/
structure CallbackResult where
  actions : List Action
  outcome : Except PyErr Unit
deriving Repr

/-- The `try` block of the consumer `callback`: build the envelope, run the
middlewares chained with the user consumer (`process`), then ack unless
`auto_ack`.  Returns the actions of the successful path. -/
def tryDeliver (autoAck : Bool) (bodyParse : String → Except PyErr String)
    (process : ConsumerMessage → Except PyErr Unit)
    (method : Deliver) (props : Props) (body : String) :
    Except PyErr (List Action) := do
  let msg ← buildEnvelope bodyParse method props body
  process msg
  pure (if autoAck then [] else [.ack method.deliveryTag])

/-- The consumer `callback` of `_add_exchange_queue`.  On any exception in
the `try` block: reject with `requeue = not method.redelivered` unless
`auto_ack` (the broker reject call itself is transport-assumed to succeed),
then — in a `finally`, so unconditionally — invoke the optional error
callback; an exception raised by the error callback is not caught anywhere
in `callback`, so it escapes as the callback's outcome. -/
def runCallback (autoAck : Bool) (queueName : String) (dlqName : Option String)
    (bodyParse : String → Except PyErr String)
    (process : ConsumerMessage → Except PyErr Unit)
    (errCb : Option (ErrCbArgs → Except PyErr Unit))
    (method : Deliver) (props : Props) (body : String) : CallbackResult :=
  match tryDeliver autoAck bodyParse process method props body with
  | .ok acts => ⟨acts, .ok ()⟩
  | .error err =>
      let rejActs : List Action :=
        if autoAck then [] else [.reject method.deliveryTag (!method.redelivered)]
      match errCb with
      | none => ⟨rejActs, .ok ()⟩
      | some cb =>
          let acts := rejActs ++
            [.errorCallback queueName dlqName method.deliveryTag body err]
          match cb ⟨queueName, dlqName, method, props, body, err⟩ with
          | .ok _ => ⟨acts, .ok ()⟩
          | .error e2 => ⟨acts, .error e2⟩

/-! ### Consumer registry (`queue` decorator, `self.consumers: Set`)

A Python `set` of function objects deduplicates by object identity, here
an explicit numeric id; each application of the decorator creates a fresh
`new_consumer` closure object wrapping the decorated handler. -/

/-- A registered consumer: the identity of the `new_consumer` wrapper
object and the identity of the handler function it wraps. -/
structure Wrapper where
  objId : Nat
  handler : Nat
deriving DecidableEq, Repr

/-- Python `set.add`: inserts unless an element with the same object identity is
already present. -/
def setAdd (c : List Wrapper) (w : Wrapper) : List Wrapper :=
  if c.any (fun x => x.objId = w.objId) then c else c ++ [w]

/-- The in-memory registry: next fresh object id, and the `consumers` set. -/
structure Registry where
  nextId : Nat
  consumers : List Wrapper
deriving Repr

/-- The body of `queue(...)`'s `decorator(f)`: allocate a fresh
`new_consumer` closure wrapping `f` and `self.consumers.add(new_consumer)`. -/
def queueDecorate (st : Registry) (handler : Nat) : Registry :=
  { nextId := st.nextId + 1
    consumers := setAdd st.consumers ⟨st.nextId, handler⟩ }

/-- Number of registry entries whose wrapped handler is `h`. -/
def countForHandler (st : Registry) (h : Nat) : Nat :=
  (st.consumers.filter (fun w => w.handler = h)).length

/-- Registry well-formedness: every stored wrapper id is below the
fresh-id counter (true of every state reachable from an empty registry). -/
def registryWF (st : Registry) : Prop :=
  ∀ w ∈ st.consumers, w.objId < st.nextId

/-! ### Queue name derivation (`_build_queue_name`) -/

/-- Python `str.replace(pat, repl)` for a single-character pattern, on the
character list of the string: every occurrence of `pat` becomes `repl`. -/
def pyReplaceChar (pat : Char) (repl : List Char) : List Char → List Char
  | [] => []
  | c :: cs => (if c = pat then repl else [c]) ++ pyReplaceChar pat repl cs

/-- Queue-name derivation, `_build_queue_name`:
`spacer = config["MQ_DELIMITER"] if "MQ_DELIMITER" in config else "."`,
then `queue_prefix + spacer + func.__name__.replace("_", spacer)`. -/
def buildQueueName (config : List (String × String)) (queuePref : String)
    (funcName : String) : String :=
  let spacer := match dictGet config "MQ_DELIMITER" with
    | some d => d
    | none => "."
  queuePref ++ spacer ++ String.mk (pyReplaceChar '_' spacer.data funcName.data)

/-- Split a character list at every underscore (the groups between
underscores, in order; empty groups kept). -/
def splitOnUnderscore : List Char → List (List Char)
  | [] => [[]]
  | c :: cs =>
      let r := splitOnUnderscore cs
      if c = '_' then [] :: r
      else
        match r with
        | [] => [[c]]
        | g :: gs => (c :: g) :: gs

/-- Concatenate groups with a separator between consecutive groups. -/
def sepConcat (delim : List Char) : List (List Char) → List Char
  | [] => []
  | [g] => g
  | g :: g2 :: gs => g ++ delim ++ sepConcat delim (g2 :: gs)

/-- The spec's formulation of the queue name: prefix, delimiter, then the
handler name with every underscore replaced by the delimiter (stated via
split-and-rejoin). -/
def specQueueName (delim : String) (queuePref : String) (funcName : String) :
    String :=
  queuePref ++ delim ++
    String.mk (sepConcat delim.data (splitOnUnderscore funcName.data))

/-! ### Publisher property construction (`_send_msg`, lines 417–436)

Header dicts are mutable objects compared by identity (`is`), modelled as
references into a heap of header maps.  Scalar property values and header
references share one value type. -/

/-- A property value passed to `spec.BasicProperties`: `None`, a string,
an integer, or a reference to a headers dict in the heap. -/
inductive PropVal where
  | pnone
  | str (s : String)
  | int (n : Int)
  | headersRef (r : Nat)
deriving DecidableEq, Repr

/-- A headers dict: string keys to string values. -/
abbrev HeaderMap := List (String × String)

/-- The heap of headers-dict objects; a `headersRef r` is index `r`. -/
abbrev Heap := List HeaderMap

/-- Update heap cell `r` (no-op when out of range, as a dangling reference
cannot occur for live Python objects). -/
def heapSet (h : Heap) (r : Nat) (m : HeaderMap) : Heap :=
  h.set r m

/-- The default-merge loop of `_send_msg`:
`for key, value in self.default_send_properties.items(): if key not in
properties: properties[key] = value`. -/
def mergeDefaults (defaults props : List (String × PropVal)) :
    List (String × PropVal) :=
  defaults.foldl
    (fun p kv => if hasKey p kv.1 then p else dictSet p kv.1 kv.2) props

/-- The scalar-defaulting portion of `_send_msg` after body
serialization: merge defaults, then default `message_id` to
`sha256(json.dumps(body)).hexdigest()` (the pure function `contentHash`
of the serialized body) and `timestamp` to the current time when not
supplied. -/
def sendMergedProps (contentHash : String → String) (now : Int)
    (defaults props0 : List (String × PropVal)) (body : String) :
    List (String × PropVal) :=
  let props1 := mergeDefaults defaults props0
  let props2 := if hasKey props1 "message_id" then props1
    else dictSet props1 "message_id" (.str (contentHash body))
  if hasKey props2 "timestamp" then props2
  else dictSet props2 "timestamp" (.int now)

/-- The headers portion of `_send_msg`:

```
if properties.get("headers") is None: properties["headers"] = {}
elif properties["headers"] is self.default_send_properties.get("headers"):
    properties["headers"] = properties["headers"].copy()
properties["headers"]["x-message-version"] = message_version
```

A missing or `None` headers entry becomes a fresh dict; a headers dict
identical (`is`) to the configured default headers dict is replaced by a
copy; the final line then mutates, in place, whatever dict
`properties["headers"]` refers to at that point. -/
def sendHeadersStep (version : String) (defaults p3 : List (String × PropVal))
    (heap0 : Heap) : List (String × PropVal) × Heap :=
  let step : (List (String × PropVal)) × Heap :=
    match dictGet p3 "headers" with
    | none => (dictSet p3 "headers" (.headersRef heap0.length), heap0 ++ [[]])
    | some .pnone =>
        (dictSet p3 "headers" (.headersRef heap0.length), heap0 ++ [[]])
    | some (.headersRef r) =>
        if dictGet defaults "headers" = some (.headersRef r) then
          (dictSet p3 "headers" (.headersRef heap0.length),
           heap0 ++ [heap0.getD r []])
        else (p3, heap0)
    | some _ => (p3, heap0)
  match dictGet step.1 "headers" with
  | some (.headersRef r) =>
      (step.1,
       heapSet step.2 r (dictSet (step.2.getD r []) "x-message-version" version))
  | _ => (step.1, step.2)

/-- The property-construction portion of `_send_msg` after body
serialization (source lines 420–436): scalar defaulting followed by the
headers handling.  Returns the final properties and the final heap of
headers dicts. -/
def sendMsgProps (contentHash : String → String) (now : Int) (version : String)
    (defaults : List (String × PropVal)) (props0 : List (String × PropVal))
    (heap0 : Heap) (body : String) : List (String × PropVal) × Heap :=
  sendHeadersStep version defaults
    (sendMergedProps contentHash now defaults props0 body) heap0

/-! ### Topology declaration (`_add_exchange_queue`, lines 272–327) -/

/-- A broker declaration call, in the order `_add_exchange_queue` issues it. -/
inductive Decl where
  | exchangeDeclare (name : String) (etype : String)
  | queueDeclare (name : String) (args : List (String × String))
  | queueBind (exchange : String) (queue : String) (routingKey : String)
deriving DecidableEq, Repr

/-- The sequence of broker declarations issued by `_add_exchange_queue`:
DLX declare when `dead_letter_exchange`; main exchange declare; DLQ declare
and bind (routing key = DLQ's own name) when enabled; main queue declare
with `x-dead-letter-exchange`/`x-dead-letter-routing-key` arguments when
enabled, empty arguments otherwise; one bind per routing key. -/
def addExchangeQueueDecls (exchangeName : String) (exchangeType : String)
    (queueName : String) (deadLetterExchange : Bool)
    (routingKeys : List String) : List Decl :=
  let dlxName := "dead.letter." ++ exchangeName
  let dlqName := "dead.letter." ++ queueName
  (if deadLetterExchange then [.exchangeDeclare dlxName "direct"] else [])
  ++ [.exchangeDeclare exchangeName exchangeType]
  ++ (if deadLetterExchange then
        [.queueDeclare dlqName [], .queueBind dlxName dlqName dlqName]
      else [])
  ++ [.queueDeclare queueName
        (if deadLetterExchange then
          [("x-dead-letter-exchange", dlxName),
           ("x-dead-letter-routing-key", dlqName)]
         else [])]
  ++ routingKeys.map (fun rk => .queueBind exchangeName queueName rk)

/-! ### Consume-loop error wrapping and retry (`_add_exchange_queue`) -/

/-- Teardown calls made when the consume loop terminates with an error. -/
inductive Teardown where
  | stopConsuming
  | closeConnection
deriving DecidableEq, Repr

/-- The `try: channel.start_consuming() except Exception as err: ...`
epilogue: on any exception, stop consuming, close the connection, and
re-raise as `AMQPConnectionError` (`raise AMQPConnectionError from err`). -/
def consumeWrapper (raw : Except PyErr Unit) : List Teardown × Except PyErr Unit :=
  match raw with
  | .ok _ => ([], .ok ())
  | .error _ => ([.stopConsuming, .closeConnection], .error .amqpConnError)

/-- The exception classes retried by the decorator
`@retry((AMQPConnectionError, AssertionError), delay=5, jitter=(5, 15))`. -/
def retryableExc : PyErr → Bool
  | .amqpConnError => true
  | .assertError => true
  | _ => false

/-- Unbounded retry (the decorator passes no `tries`): result available
within the first `n` attempts, where attempt `k` yields `outcomes k`; a
retryable error continues, a non-retryable error or a success terminates.
`none` means all `n` attempts failed retryably and the loop is still going. -/
def retryResult (retryable : PyErr → Bool) (outcomes : Nat → Except PyErr Unit) :
    Nat → Option (Except PyErr Unit)
  | 0 => none
  | n + 1 =>
      match retryResult retryable outcomes n with
      | some r => some r
      | none =>
          match outcomes n with
          | .ok a => some (.ok a)
          | .error e => if retryable e then none else some (.error e)

/-- Modelled from the spec: the retry decorator's delay between attempts,
`baseDelay + uniformRandom(jitterMin, jitterMax)` (the `retry` package is
an external dependency, not part of this repository's sources); the
decorator passes `delay=5, jitter=(5, 15)`. -/
def retryDelay (base : Nat) (jitter : Nat → Nat) (n : Nat) : Nat :=
  base + jitter n

/-! ### Configuration access (`__init__` / `init_app`, lines 63–130) -/

/-- Config lookup `self.config.get(key)` where `self.config` is `None` or a dict:
attribute access `.get` on `None` raises `AttributeError` before anything
else is evaluated. -/
def configGet (config : Option (List (String × String))) (key : String) :
    Except PyErr (Option String) :=
  match config with
  | none => .error .attrError
  | some d => .ok (dictGet d key)

/-- Python truthiness filter for an optional string (`None` and `""` falsy). -/
def truthyStr : Option String → Option String
  | none => none
  | some s => if s = "" then none else some s

/-- The expression `self.config.get(key) or os.getenv(key)`: the left operand is
evaluated first (raising `AttributeError` when the config is `None`); when
it is falsy the expression's value is the raw environment lookup. -/
def configOrEnv (config : Option (List (String × String)))
    (env : String → Option String) (key : String) :
    Except PyErr (Option String) := do
  let v ← configGet config key
  match truthyStr v with
  | some s => pure (some s)
  | none => pure (env key)

/-- The configuration-reading portion of `init_app`: resolve
`MQ_EXCHANGE` then `MQ_URL`, each followed by an `assert` on truthiness
(a falsy result raises `AssertionError`). -/
def initAppConfig (config : Option (List (String × String)))
    (env : String → Option String) : Except PyErr (String × String) := do
  let ex ← configOrEnv config env "MQ_EXCHANGE"
  match truthyStr ex with
  | none => .error .assertError
  | some exchangeName => do
      let url ← configOrEnv config env "MQ_URL"
      match truthyStr url with
      | none => .error .assertError
      | some mqUrl => pure (exchangeName, mqUrl)

/-- Whether an action is a `basic_reject` call. -/
def isReject : Action → Bool
  | .reject _ _ => true
  | _ => false

/-- The dead-letter history carried by a delivery: the `x-death` list when
the headers dict holds one, else `[]`. -/
def xDeathList (props : Props) : List XDeathEntry :=
  match props.headers with
  | none => []
  | some hs =>
      match dictGet hs "x-death" with
      | some (.deaths l) => l
      | _ => []

/-- Header well-typedness: an `x-death` header, when present, is a list of
history tables, never a plain string (true of every broker-produced
delivery). -/
def wellTypedXDeath (props : Props) : Prop :=
  match props.headers with
  | none => True
  | some hs => ∀ s, dictGet hs "x-death" ≠ some (.str s)

/-! ## Helper lemmas on the dict model -/

theorem dictGet_dictSet_self {α : Type} (d : List (String × α)) (k : String)
    (v : α) : dictGet (dictSet d k v) k = some v := by
  induction d with
  | nil => simp [dictSet, dictGet]
  | cons hd tl ih =>
      by_cases h : hd.1 = k
      · simp [dictSet, dictGet, h]
      · simpa [dictSet, dictGet, h] using ih

theorem dictGet_dictSet_ne {α : Type} (d : List (String × α)) (k k1 : String)
    (v : α) (hne : k1 ≠ k) : dictGet (dictSet d k v) k1 = dictGet d k1 := by
  have hne1 : k ≠ k1 := Ne.symm hne
  induction d with
  | nil => simp [dictSet, dictGet, hne1]
  | cons hd tl ih =>
      by_cases h : hd.1 = k
      · subst h
        simp [dictSet, dictGet, hne1]
      · simp only [dictSet, if_neg h]
        by_cases h1 : hd.1 = k1
        · simp [dictGet, h1]
        · simpa [dictGet, h1] using ih

theorem hasKey_eq_false_iff {α : Type} (d : List (String × α)) (k : String) :
    hasKey d k = false ↔ dictGet d k = none := by
  cases h : dictGet d k <;> simp [hasKey, h]

theorem dictGet_mergeDefaults (ds ps : List (String × PropVal)) (k : String) :
    dictGet (mergeDefaults ds ps) k =
      match dictGet ps k with
      | some v => some v
      | none => dictGet ds k := by
  induction ds generalizing ps with
  | nil => cases h : dictGet ps k <;> simp [mergeDefaults, dictGet, h]
  | cons d ds ih =>
      show dictGet (mergeDefaults ds
        (if hasKey ps d.1 then ps else dictSet ps d.1 d.2)) k = _
      by_cases hk : hasKey ps d.1 = true
      · rw [if_pos hk, ih ps]
        by_cases hdk : d.1 = k
        · subst hdk
          rcases h : dictGet ps d.1 with _ | v
          · simp [hasKey, h] at hk
          · simp [dictGet, h]
        · cases h : dictGet ps k <;> simp [dictGet, hdk, h]
      · rw [if_neg hk, ih]
        have hk2 : dictGet ps d.1 = none := by
          rcases h : dictGet ps d.1 with _ | v
          · rfl
          · exact absurd (by simp [hasKey, h]) hk
        by_cases hdk : d.1 = k
        · subst hdk
          rw [dictGet_dictSet_self, hk2]
          simp [dictGet]
        · rw [dictGet_dictSet_ne ps d.1 k d.2 (Ne.symm hdk)]
          cases h : dictGet ps k <;> simp [dictGet, hdk, h]

/-! ## Helper lemmas for queue-name derivation -/

theorem splitOnUnderscore_ne_nil (l : List Char) : splitOnUnderscore l ≠ [] := by
  cases l with
  | nil => simp [splitOnUnderscore]
  | cons c cs =>
      simp only [splitOnUnderscore]
      by_cases h : c = '_'
      · simp [h]
      · simp only [if_neg h]
        cases splitOnUnderscore cs <;> simp

theorem pyReplaceChar_eq_sepConcat (delim : List Char) (l : List Char) :
    pyReplaceChar '_' delim l = sepConcat delim (splitOnUnderscore l) := by
  induction l with
  | nil => rfl
  | cons c cs ih =>
      simp only [pyReplaceChar, splitOnUnderscore]
      rcases hsp : splitOnUnderscore cs with _ | ⟨g, gs⟩
      · exact absurd hsp (splitOnUnderscore_ne_nil cs)
      · rw [hsp] at ih
        by_cases h : c = '_'
        · subst h
          simp only [if_pos rfl, ih]
          cases gs <;> simp [sepConcat]
        · simp only [if_neg h, ih]
          cases gs <;> simp [sepConcat]

/-! ## Claim C6: queue-name derivation -/

/-- Claim C6: for every handler function, the derived queue name equals
`queuePrefix + delimiter + handlerName` with every underscore in the
handler name replaced by the delimiter, where the delimiter is the
configured `MQ_DELIMITER` if present and `"."` otherwise; in particular
prefix `"example"` and handler name `ping_event` yield
`"example.ping.event"`. -/
theorem buildQueueName_matches_spec :
    (∀ (config : List (String × String)) (queuePref funcName : String),
      buildQueueName config queuePref funcName =
        specQueueName ((dictGet config "MQ_DELIMITER").getD ".")
          queuePref funcName) ∧
    buildQueueName [] "example" "ping_event" = "example.ping.event" := by
  constructor
  · intro config queuePref funcName
    unfold buildQueueName specQueueName
    cases h : dictGet config "MQ_DELIMITER" <;>
      simp [h, pyReplaceChar_eq_sepConcat]
  · decide

/-! ## Claim C3: registration is not idempotent per handler -/

/-- Claim C3 (counterexample): decorating the same handler function twice
is claimed to leave exactly one registry entry for that handler; in fact
each decoration creates a fresh `new_consumer` wrapper object and the
`set` deduplicates by wrapper identity, so starting from an empty registry
and decorating handler `0` twice leaves two entries for it, not one. -/
theorem queueDecorate_twice_two_entries :
    countForHandler (queueDecorate (queueDecorate ⟨0, []⟩ 0) 0) 0 = 2 ∧
    countForHandler (queueDecorate (queueDecorate ⟨0, []⟩ 0) 0) 0 ≠ 1 := by
  decide

/-- Claim C3 (amended): the `consumers` set has set semantics over the
`new_consumer` wrapper objects (adding the identical wrapper twice is
idempotent), but each decoration creates a fresh wrapper, so decorating
the same underlying handler twice adds two registry entries for that
handler. -/
theorem consumers_set_semantics :
    (∀ (c : List Wrapper) (w : Wrapper), setAdd (setAdd c w) w = setAdd c w) ∧
    (∀ (st : Registry) (h : Nat), registryWF st →
      countForHandler (queueDecorate (queueDecorate st h) h) h =
        countForHandler st h + 2) := by
  constructor
  · intro c w
    by_cases h : c.any (fun x => x.objId = w.objId) = true
    · simp [setAdd, h]
    · simp only [setAdd, if_neg h]
      have hmem : ((c ++ [w]).any (fun x => x.objId = w.objId)) = true := by
        simp
      simp [hmem]
  · intro st h hwf
    have h1 : (st.consumers.any (fun x => x.objId = st.nextId)) = false := by
      rw [List.any_eq_false]
      intro x hx
      have hlt := hwf x hx
      simp only [decide_eq_true_eq]
      omega
    have e1 : queueDecorate st h =
        ⟨st.nextId + 1, st.consumers ++ [⟨st.nextId, h⟩]⟩ := by
      simp [queueDecorate, setAdd, h1]
    have h2 : ((st.consumers ++ [(⟨st.nextId, h⟩ : Wrapper)]).any
        (fun x => x.objId = st.nextId + 1)) = false := by
      rw [List.any_eq_false]
      intro x hx
      rcases List.mem_append.mp hx with hx1 | hx1
      · have hlt := hwf x hx1
        simp only [decide_eq_true_eq]
        omega
      · simp only [List.mem_singleton] at hx1
        subst hx1
        simp only [decide_eq_true_eq]
        omega
    rw [e1]
    show countForHandler
        ⟨st.nextId + 1 + 1,
         setAdd (st.consumers ++ [⟨st.nextId, h⟩]) ⟨st.nextId + 1, h⟩⟩ h = _
    rw [show setAdd (st.consumers ++ [(⟨st.nextId, h⟩ : Wrapper)])
          ⟨st.nextId + 1, h⟩ =
        st.consumers ++ [⟨st.nextId, h⟩] ++ [⟨st.nextId + 1, h⟩] from by
      simp [setAdd, h2]]
    simp [countForHandler, List.filter_append]

/-- Concrete witness for the amended C3 theorem: from the empty registry,
decorating handler `5` twice yields two entries for it. -/
theorem consumers_set_semantics_witness :
    countForHandler (queueDecorate (queueDecorate ⟨0, []⟩ 5) 5) 5 =
      countForHandler ⟨0, []⟩ 5 + 2 :=
  consumers_set_semantics.2 ⟨0, []⟩ 5 (by intro w hw; cases hw)

/-! ## Claim C1: reject with requeue = not redelivered -/

/-- Claim C1: for every delivery whose processing (envelope construction,
any middleware, or the user handler) raises, when `auto_ack` is false the
callback issues exactly one reject, using the delivery's own tag, with
`requeue` equal to the negation of the delivery's redelivered flag. -/
theorem reject_requeue_not_redelivered
    (queueName : String) (dlqName : Option String)
    (bodyParse : String → Except PyErr String)
    (process : ConsumerMessage → Except PyErr Unit)
    (errCb : Option (ErrCbArgs → Except PyErr Unit))
    (method : Deliver) (props : Props) (body : String) (e : PyErr)
    (hfail : tryDeliver false bodyParse process method props body = .error e) :
    ((runCallback false queueName dlqName bodyParse process errCb method
        props body).actions.filter isReject) =
      [.reject method.deliveryTag (!method.redelivered)] := by
  cases errCb with
  | none => simp [runCallback, hfail, isReject]
  | some cb =>
      cases hc : cb ⟨queueName, dlqName, method, props, body, e⟩ <;>
        simp [runCallback, hfail, hc, isReject]

/-- Concrete witness for C1: a never-redelivered delivery whose handler
raises is rejected with its tag `7` and `requeue = true`. -/
theorem reject_requeue_not_redelivered_witness :
    ((runCallback false "example.ping.event" none (fun b => .ok b)
        (fun _ => .error (.exc 0)) none ⟨7, false, "ping.error"⟩ ⟨none⟩
        "b").actions.filter isReject) = [.reject 7 true] :=
  reject_requeue_not_redelivered "example.ping.event" none (fun b => .ok b)
    (fun _ => .error (.exc 0)) none ⟨7, false, "ping.error"⟩ ⟨none⟩ "b"
    (.exc 0) rfl

/-! ## Claim C2: effective routing key from dead-letter history -/

/-- Envelope construction `buildEnvelope` succeeds exactly when routing-key resolution and body
parsing succeed, and then packages their results unchanged. -/
theorem buildEnvelope_ok_iff (bodyParse : String → Except PyErr String)
    (method : Deliver) (props : Props) (body : String) (msg : ConsumerMessage) :
    buildEnvelope bodyParse method props body = .ok msg ↔
      ∃ rk parsed, resolveRoutingKey method props = .ok rk ∧
        bodyParse body = .ok parsed ∧ msg = ⟨rk, body, parsed, method, props⟩ := by
  unfold buildEnvelope
  rcases h1 : resolveRoutingKey method props with e | rk <;>
    rcases h2 : bodyParse body with e2 | parsed <;>
      simp [Bind.bind, Except.bind, h1, h2, pure, Except.pure, eq_comm]

/-- Claim C2: when the delivery's headers carry a non-empty `x-death`
history (and, as for every broker delivery, that header is a list), the
resolved routing key — the one placed into the Message Envelope — is the
first routing key recorded in the first history entry; without such a
history it is the delivery's own routing key. -/
theorem envelope_routing_key (method : Deliver) (props : Props)
    (hwt : wellTypedXDeath props) :
    (∀ e rest k ks, xDeathList props = e :: rest →
        e.routingKeys = some (k :: ks) →
        resolveRoutingKey method props = .ok k) ∧
    (xDeathList props = [] →
        resolveRoutingKey method props = .ok method.routingKey) ∧
    (∀ bodyParse body msg,
        buildEnvelope bodyParse method props body = .ok msg →
        resolveRoutingKey method props = .ok msg.routingKey) := by
  obtain ⟨hdrs⟩ := props
  refine ⟨?_, ?_, ?_⟩
  · intro e rest k ks hx hrk
    cases hdrs with
    | none => simp [xDeathList] at hx
    | some hs =>
        rcases hd : dictGet hs "x-death" with _ | v
        · simp [xDeathList, hd] at hx
        · cases v with
          | str s => simp [xDeathList, hd] at hx
          | deaths l =>
              simp only [xDeathList, hd] at hx
              subst hx
              have hne : hs ≠ [] := by
                intro h0
                rw [h0] at hd
                simp [dictGet] at hd
              simp [resolveRoutingKey, hne, hd, hrk]
  · intro hx
    cases hdrs with
    | none => simp [resolveRoutingKey]
    | some hs =>
        by_cases hne : hs = []
        · simp [resolveRoutingKey, hne]
        · rcases hd : dictGet hs "x-death" with _ | v
          · simp [resolveRoutingKey, hne, hd]
          · cases v with
            | str s =>
                exact absurd hd (by simpa [wellTypedXDeath] using hwt s)
            | deaths l =>
                cases l with
                | nil => simp [resolveRoutingKey, hne, hd]
                | cons e rest => simp [xDeathList, hd] at hx
  · intro bodyParse body msg hok
    obtain ⟨rk, parsed, h1, _, hmsg⟩ :=
      (buildEnvelope_ok_iff bodyParse method ⟨hdrs⟩ body msg).mp hok
    rw [hmsg, h1]

/-- Concrete witness for C2: a dead-lettered delivery whose `x-death`
history records original key `"ping.error"` resolves to `"ping.error"`,
not to the dead-letter routing key it was delivered with. -/
theorem envelope_routing_key_witness :
    resolveRoutingKey ⟨3, false, "dead.letter.example.ping.event"⟩
        ⟨some [("x-death", .deaths [⟨some ["ping.error"]⟩])]⟩ =
      .ok "ping.error" :=
  (envelope_routing_key ⟨3, false, "dead.letter.example.ping.event"⟩
      ⟨some [("x-death", .deaths [⟨some ["ping.error"]⟩])]⟩
      (by intro s h; simp [dictGet] at h)).1
    ⟨some ["ping.error"]⟩ [] "ping.error" [] rfl rfl

/-! ## Claim C5: error-callback invocation and propagation -/

/-- Claim C5 (counterexample): the error callback's own errors are claimed
to be swallowed; in fact the callback runs in a `finally` with no
enclosing handler, so on this concrete failing delivery the error raised
by the error callback escapes the per-delivery handling. -/
theorem error_callback_error_escapes :
    (runCallback false "q" none (fun b => .ok b) (fun _ => .error (.exc 1))
        (some (fun _ => .error (.exc 9))) ⟨1, false, "rk"⟩ ⟨none⟩
        "b").outcome = .error (.exc 9) ∧
    (runCallback false "q" none (fun b => .ok b) (fun _ => .error (.exc 1))
        (some (fun _ => .error (.exc 9))) ⟨1, false, "rk"⟩ ⟨none⟩
        "b").outcome ≠ .ok () := ⟨rfl, fun h => Except.noConfusion h⟩

/-- Claim C5 (amended): on a failing delivery the optional error callback
is invoked after the rejection (unconditionally, via `finally`) with
`(queueName, deadLetterQueueName-or-nil, delivery metadata, rawBody,
error)`, but an error raised by the callback itself is not swallowed: it
propagates out of the per-delivery handling. -/
theorem error_callback_after_reject (autoAck : Bool) (queueName : String)
    (dlqName : Option String) (bodyParse : String → Except PyErr String)
    (process : ConsumerMessage → Except PyErr Unit)
    (cb : ErrCbArgs → Except PyErr Unit)
    (method : Deliver) (props : Props) (body : String) (e : PyErr)
    (hfail : tryDeliver autoAck bodyParse process method props body = .error e) :
    (runCallback autoAck queueName dlqName bodyParse process (some cb) method
        props body).actions =
      (if autoAck then []
       else [.reject method.deliveryTag (!method.redelivered)]) ++
        [.errorCallback queueName dlqName method.deliveryTag body e] ∧
    (runCallback autoAck queueName dlqName bodyParse process (some cb) method
        props body).outcome =
      match cb ⟨queueName, dlqName, method, props, body, e⟩ with
      | .ok _ => .ok ()
      | .error e2 => .error e2 := by
  cases hc : cb ⟨queueName, dlqName, method, props, body, e⟩ <;>
    simp [runCallback, hfail, hc]

/-- Concrete witness for the amended C5 theorem: a redelivered failing
delivery is rejected without requeue, the callback is invoked with the
queue name, DLQ name, tag, body and error, and the error the callback
raises becomes the callback's outcome. -/
theorem error_callback_after_reject_witness :
    (runCallback false "q" (some "dead.letter.q") (fun b => .ok b)
        (fun _ => .error (.exc 1)) (some (fun _ => .error (.exc 9)))
        ⟨2, true, "rk"⟩ ⟨none⟩ "b").actions =
      [.reject 2 false,
       .errorCallback "q" (some "dead.letter.q") 2 "b" (.exc 1)] ∧
    (runCallback false "q" (some "dead.letter.q") (fun b => .ok b)
        (fun _ => .error (.exc 1)) (some (fun _ => .error (.exc 9)))
        ⟨2, true, "rk"⟩ ⟨none⟩ "b").outcome = .error (.exc 9) :=
  error_callback_after_reject false "q" (some "dead.letter.q")
    (fun b => .ok b) (fun _ => .error (.exc 1)) (fun _ => .error (.exc 9))
    ⟨2, true, "rk"⟩ ⟨none⟩ "b" (.exc 1) rfl

/-! ## Helper lemmas for the publisher model -/

theorem listGetD_set_ne {α : Type} (l : List α) (r d : Nat) (a dflt : α)
    (hne : d ≠ r) : (l.set r a).getD d dflt = l.getD d dflt := by
  induction l generalizing r d with
  | nil => simp [List.set]
  | cons x xs ih =>
      cases r with
      | zero =>
          cases d with
          | zero => exact absurd rfl hne
          | succ d => simp [List.set, List.getD]
      | succ r =>
          cases d with
          | zero => simp [List.set, List.getD]
          | succ d =>
              simpa [List.set, List.getD] using ih r d (by omega)

theorem listGetD_set_self {α : Type} (l : List α) (r : Nat) (a dflt : α)
    (hr : r < l.length) : (l.set r a).getD r dflt = a := by
  induction l generalizing r with
  | nil => simp at hr
  | cons x xs ih =>
      cases r with
      | zero => simp [List.set, List.getD]
      | succ r =>
          simp only [List.length_cons, Nat.add_lt_add_iff_right] at hr
          simpa [List.set, List.getD] using ih r hr

theorem listGetD_append_lt {α : Type} (l m : List α) (d : Nat) (dflt : α)
    (hd : d < l.length) : (l ++ m).getD d dflt = l.getD d dflt := by
  induction l generalizing d with
  | nil => simp at hd
  | cons x xs ih =>
      cases d with
      | zero => simp [List.getD]
      | succ d =>
          simp only [List.length_cons, Nat.add_lt_add_iff_right] at hd
          simpa [List.getD] using ih d hd

theorem sendMergedProps_get_other (contentHash : String → String) (now : Int)
    (ds ps : List (String × PropVal)) (body : String) (k : String)
    (h1 : k ≠ "message_id") (h2 : k ≠ "timestamp") :
    dictGet (sendMergedProps contentHash now ds ps body) k =
      dictGet (mergeDefaults ds ps) k := by
  simp only [sendMergedProps]
  by_cases hm : hasKey (mergeDefaults ds ps) "message_id" = true
  · simp only [if_pos hm]
    by_cases ht : hasKey (mergeDefaults ds ps) "timestamp" = true
    · simp only [if_pos ht]
    · simp only [if_neg ht, dictGet_dictSet_ne _ _ _ _ h2]
  · simp only [if_neg hm]
    by_cases ht : hasKey (dictSet (mergeDefaults ds ps) "message_id"
        (.str (contentHash body))) "timestamp" = true
    · simp only [if_pos ht, dictGet_dictSet_ne _ _ _ _ h1]
    · simp only [if_neg ht, dictGet_dictSet_ne _ _ _ _ h2,
        dictGet_dictSet_ne _ _ _ _ h1]

theorem sendMergedProps_message_id (contentHash : String → String) (now : Int)
    (ds ps : List (String × PropVal)) (body : String)
    (hno : dictGet ps "message_id" = none) :
    dictGet (sendMergedProps contentHash now ds ps body) "message_id" =
      match dictGet ds "message_id" with
      | some v => some v
      | none => some (.str (contentHash body)) := by
  have hmerge : dictGet (mergeDefaults ds ps) "message_id" =
      dictGet ds "message_id" := by
    rw [dictGet_mergeDefaults, hno]
  have hmt : ("message_id" : String) ≠ "timestamp" := by decide
  simp only [sendMergedProps]
  rcases hd : dictGet ds "message_id" with _ | v
  · have hm : ¬ hasKey (mergeDefaults ds ps) "message_id" = true := by
      simp [hasKey, hmerge, hd]
    simp only [if_neg hm]
    by_cases ht : hasKey (dictSet (mergeDefaults ds ps) "message_id"
        (.str (contentHash body))) "timestamp" = true
    · simp only [if_pos ht, dictGet_dictSet_self]
    · simp only [if_neg ht, dictGet_dictSet_ne _ _ _ _ hmt,
        dictGet_dictSet_self]
  · have hm : hasKey (mergeDefaults ds ps) "message_id" = true := by
      simp [hasKey, hmerge, hd]
    simp only [if_pos hm]
    by_cases ht : hasKey (mergeDefaults ds ps) "timestamp" = true
    · simp only [if_pos ht, hmerge, hd]
    · simp only [if_neg ht, dictGet_dictSet_ne _ _ _ _ hmt, hmerge, hd]

theorem sendHeadersStep_get_other (version : String)
    (ds p3 : List (String × PropVal)) (h0 : Heap) (k : String)
    (hk : k ≠ "headers") :
    dictGet (sendHeadersStep version ds p3 h0).1 k = dictGet p3 k := by
  simp only [sendHeadersStep]
  rcases hh : dictGet p3 "headers" with _ | v
  · simp [dictGet_dictSet_self, dictGet_dictSet_ne _ _ _ _ hk]
  · cases v with
    | pnone => simp [dictGet_dictSet_self, dictGet_dictSet_ne _ _ _ _ hk]
    | str s => simp [hh]
    | int n => simp [hh]
    | headersRef r =>
        by_cases hdr : dictGet ds "headers" = some (.headersRef r)
        · simp [hdr, dictGet_dictSet_self, dictGet_dictSet_ne _ _ _ _ hk]
        · simp [hdr, hh]

theorem sendHeadersStep_default_heap (version : String)
    (ds p3 : List (String × PropVal)) (h0 : Heap) (d : Nat)
    (hd : dictGet ds "headers" = some (.headersRef d)) (hlen : d < h0.length) :
    (sendHeadersStep version ds p3 h0).2.getD d [] = h0.getD d [] := by
  have hdlen : d ≠ h0.length := by omega
  simp only [sendHeadersStep]
  rcases hh : dictGet p3 "headers" with _ | v
  · simp only [dictGet_dictSet_self, heapSet]
    rw [listGetD_set_ne _ _ _ _ _ hdlen, listGetD_append_lt _ _ _ _ hlen]
  · cases v with
    | pnone =>
        simp only [dictGet_dictSet_self, heapSet]
        rw [listGetD_set_ne _ _ _ _ _ hdlen, listGetD_append_lt _ _ _ _ hlen]
    | str s => simp [hh]
    | int n => simp [hh]
    | headersRef r =>
        by_cases hdr : dictGet ds "headers" = some (.headersRef r)
        · simp only [hh]
          rw [if_pos hdr]
          simp only [dictGet_dictSet_self, heapSet]
          rw [listGetD_set_ne _ _ _ _ _ hdlen,
            listGetD_append_lt _ _ _ _ hlen]
        · have hrd : d ≠ r := by
            intro h
            exact hdr (h ▸ hd)
          simp only [hh]
          rw [if_neg hdr]
          simp only [hh, heapSet]
          rw [listGetD_set_ne _ _ _ _ _ hrd]

theorem sendHeadersStep_alias (version : String)
    (ds p3 : List (String × PropVal)) (h0 : Heap) (r : Nat)
    (hp : dictGet p3 "headers" = some (.headersRef r))
    (hdr : dictGet ds "headers" ≠ some (.headersRef r)) (hlen : r < h0.length) :
    dictGet (sendHeadersStep version ds p3 h0).1 "headers" =
        some (.headersRef r) ∧
      (sendHeadersStep version ds p3 h0).2.getD r [] =
        dictSet (h0.getD r []) "x-message-version" version := by
  have hstep : sendHeadersStep version ds p3 h0 =
      (p3, heapSet h0 r (dictSet (h0.getD r []) "x-message-version" version)) := by
    simp [sendHeadersStep, hp, hdr]
  rw [hstep]
  exact ⟨hp, listGetD_set_self h0 r _ _ hlen⟩

theorem sendMsgProps_message_id (contentHash : String → String) (now : Int)
    (version : String) (defaults props0 : List (String × PropVal))
    (heap0 : Heap) (body : String) :
    dictGet (sendMsgProps contentHash now version defaults props0 heap0 body).1
        "message_id" =
      dictGet (sendMergedProps contentHash now defaults props0 body)
        "message_id" :=
  sendHeadersStep_get_other version defaults _ heap0 "message_id" (by decide)

/-! ## Claim C4: default merge and header aliasing -/

/-- Claim C4 (counterexample): the headers dict placed into the outgoing
properties is claimed to never alias a caller-supplied headers dict; in
fact, for a send whose caller passes its own headers dict (reference `0`,
distinct from any default), the outgoing properties still reference that
same dict and `x-message-version` is written into it in place, mutating
the caller's dict. -/
theorem caller_headers_dict_mutated :
    dictGet (sendMsgProps (fun _ => "h") 0 "v1.0.0" []
        [("headers", .headersRef 0)] [[]] "body").1 "headers" =
      some (.headersRef 0) ∧
    (sendMsgProps (fun _ => "h") 0 "v1.0.0" []
        [("headers", .headersRef 0)] [[]] "body").2.getD 0 [] =
      [("x-message-version", "v1.0.0")] ∧
    (sendMsgProps (fun _ => "h") 0 "v1.0.0" []
        [("headers", .headersRef 0)] [[]] "body").2.getD 0 [] ≠ [] :=
  ⟨rfl, rfl, by decide⟩

/-- Claim C4 (amended): default send properties are merged in for exactly
the keys not explicitly supplied per call, and the configured default
headers dict is never mutated (it is copied whenever it would be the
mutation target); but a caller-supplied headers dict distinct from the
default one is aliased, not copied: `x-message-version` is written into
the caller's dict in place. -/
theorem send_defaults_merge_and_headers
    (contentHash : String → String) (now : Int) (version : String)
    (defaults props0 : List (String × PropVal)) (heap0 : Heap) (body : String) :
    (∀ k, dictGet (mergeDefaults defaults props0) k =
        match dictGet props0 k with
        | some v => some v
        | none => dictGet defaults k) ∧
    (∀ d, dictGet defaults "headers" = some (.headersRef d) →
      d < heap0.length →
      (sendMsgProps contentHash now version defaults props0 heap0 body).2.getD
          d [] = heap0.getD d []) ∧
    (∀ r, dictGet props0 "headers" = some (.headersRef r) →
      dictGet defaults "headers" ≠ some (.headersRef r) →
      r < heap0.length →
      dictGet (sendMsgProps contentHash now version defaults props0 heap0
          body).1 "headers" = some (.headersRef r) ∧
      (sendMsgProps contentHash now version defaults props0 heap0 body).2.getD
          r [] = dictSet (heap0.getD r []) "x-message-version" version) := by
  refine ⟨fun k => dictGet_mergeDefaults defaults props0 k, ?_, ?_⟩
  · intro d hd hlen
    exact sendHeadersStep_default_heap version defaults _ heap0 d hd hlen
  · intro r hp hdr hlen
    have h3 : dictGet (sendMergedProps contentHash now defaults props0 body)
        "headers" = some (.headersRef r) := by
      rw [sendMergedProps_get_other _ _ _ _ _ _ (by decide) (by decide),
        dictGet_mergeDefaults, hp]
    exact sendHeadersStep_alias version defaults _ heap0 r h3 hdr hlen

/-- Concrete witness for the amended C4 theorem: with one default scalar
property and a caller-supplied headers dict `{"k": "v"}` (reference `0`),
the outgoing properties alias reference `0` and the dict is mutated in
place by the `x-message-version` write. -/
theorem send_defaults_merge_and_headers_witness :
    dictGet (sendMsgProps (fun _ => "h") 0 "v1.0.0" [("app_id", .str "svc")]
        [("headers", .headersRef 0)] [[("k", "v")]] "b").1 "headers" =
      some (.headersRef 0) ∧
    (sendMsgProps (fun _ => "h") 0 "v1.0.0" [("app_id", .str "svc")]
        [("headers", .headersRef 0)] [[("k", "v")]] "b").2.getD 0 [] =
      dictSet [("k", "v")] "x-message-version" "v1.0.0" :=
  (send_defaults_merge_and_headers (fun _ => "h") 0 "v1.0.0"
      [("app_id", .str "svc")] [("headers", .headersRef 0)] [[("k", "v")]]
      "b").2.2 0 rfl (by decide) (by decide)

/-! ## Claim C8: deterministic default message id -/

/-- Claim C8: for every send with no explicit `message_id` property, the
message id placed into the published properties is a pure function of the
serialized body (and the fixed configuration): two sends with equal
serialized bodies, possibly differing in time, heap state and other
per-call properties, carry the same message id; when the configured
defaults supply no `message_id` either, that id is the content hash of
the serialized body. -/
theorem message_id_deterministic
    (contentHash : String → String) (now1 now2 : Int) (version : String)
    (defaults ps1 ps2 : List (String × PropVal)) (heap1 heap2 : Heap)
    (body : String)
    (h1 : dictGet ps1 "message_id" = none)
    (h2 : dictGet ps2 "message_id" = none) :
    dictGet (sendMsgProps contentHash now1 version defaults ps1 heap1 body).1
        "message_id" =
      dictGet (sendMsgProps contentHash now2 version defaults ps2 heap2 body).1
        "message_id" ∧
    (dictGet defaults "message_id" = none →
      dictGet (sendMsgProps contentHash now1 version defaults ps1 heap1 body).1
          "message_id" = some (.str (contentHash body))) := by
  constructor
  · rw [sendMsgProps_message_id, sendMsgProps_message_id,
      sendMergedProps_message_id _ _ _ _ _ h1,
      sendMergedProps_message_id _ _ _ _ _ h2]
  · intro hds
    rw [sendMsgProps_message_id, sendMergedProps_message_id _ _ _ _ _ h1, hds]

/-- Concrete witness for C8: two sends of the body `"payload"` at
different times, with different heaps and different extra properties,
produce the same `message_id`. -/
theorem message_id_deterministic_witness :
    dictGet (sendMsgProps (fun s => String.append s "#") 11 "v1.0.0" [] [] []
        "payload").1 "message_id" =
      dictGet (sendMsgProps (fun s => String.append s "#") 99 "v1.0.0" []
          [("headers", .pnone)] [[]] "payload").1 "message_id" :=
  (message_id_deterministic (fun s => String.append s "#") 11 99 "v1.0.0" []
      [] [("headers", .pnone)] [] [[]] "payload" rfl rfl).1

/-! ## Claim C7: dead-letter topology declaration -/

/-- Claim C7: with the dead-letter flag enabled, setup declares a DLX
named `"dead.letter." + exchangeName`, a DLQ named
`"dead.letter." + queueName` bound to the DLX with the DLQ's own name as
routing key, and the main queue with `x-dead-letter-exchange` /
`x-dead-letter-routing-key` arguments pointing at them; with the flag
disabled, no dead-letter entity is declared and the main queue's
arguments are empty. -/
theorem dead_letter_topology :
    (∀ (exchangeName exchangeType queueName : String)
        (routingKeys : List String),
      addExchangeQueueDecls exchangeName exchangeType queueName true
          routingKeys =
        [.exchangeDeclare ("dead.letter." ++ exchangeName) "direct",
         .exchangeDeclare exchangeName exchangeType,
         .queueDeclare ("dead.letter." ++ queueName) [],
         .queueBind ("dead.letter." ++ exchangeName)
           ("dead.letter." ++ queueName) ("dead.letter." ++ queueName),
         .queueDeclare queueName
           [("x-dead-letter-exchange", "dead.letter." ++ exchangeName),
            ("x-dead-letter-routing-key", "dead.letter." ++ queueName)]] ++
          routingKeys.map (fun rk => .queueBind exchangeName queueName rk)) ∧
    (∀ (exchangeName exchangeType queueName : String)
        (routingKeys : List String),
      addExchangeQueueDecls exchangeName exchangeType queueName false
          routingKeys =
        [.exchangeDeclare exchangeName exchangeType,
         .queueDeclare queueName []] ++
          routingKeys.map (fun rk => .queueBind exchangeName queueName rk)) := by
  constructor <;> intro en et qn rks <;> simp [addExchangeQueueDecls]

/-! ## Claim C9: any consume-loop error becomes a retried connection error -/

/-- Claim C9: every exception terminating the consume loop — of any kind —
leads to stop-consuming and connection-close teardown and is re-raised as
`AMQPConnectionError`, which the unbounded `retry` decorator classifies
as retryable; hence the setup-and-consume sequence is retried at every
attempt (never terminating with a propagated error), with each
inter-attempt delay equal to the base delay `5` plus a jitter drawn from
`[5, 15]`. -/
theorem consume_error_unbounded_retry (raw : Nat → Except PyErr Unit)
    (hfail : ∀ k, ∃ e, raw k = .error e) :
    (∀ k, consumeWrapper (raw k) =
      ([.stopConsuming, .closeConnection], .error .amqpConnError)) ∧
    retryableExc .amqpConnError = true ∧
    (∀ n, retryResult retryableExc (fun k => (consumeWrapper (raw k)).2) n =
      none) ∧
    (∀ jitter : Nat → Nat, (∀ n, 5 ≤ jitter n ∧ jitter n ≤ 15) →
      ∀ n, 10 ≤ retryDelay 5 jitter n ∧ retryDelay 5 jitter n ≤ 20) := by
  have hw : ∀ k, consumeWrapper (raw k) =
      ([.stopConsuming, .closeConnection], .error .amqpConnError) := by
    intro k
    obtain ⟨e, he⟩ := hfail k
    rw [he]
    rfl
  refine ⟨hw, rfl, ?_, ?_⟩
  · intro n
    induction n with
    | zero => rfl
    | succ n ih => simp [retryResult, ih, hw n, retryableExc]
  · intro jitter hj n
    have hn := hj n
    unfold retryDelay
    omega

/-- Concrete witness for C9: a consume loop that keeps failing with an
arbitrary non-connection exception kind is still being retried after five
attempts. -/
theorem consume_error_unbounded_retry_witness :
    retryResult retryableExc
        (fun k => (consumeWrapper
          ((fun _ => .error (.exc 3) : Nat → Except PyErr Unit) k)).2) 5 =
      none :=
  (consume_error_unbounded_retry (fun _ => .error (.exc 3))
      (fun _ => ⟨.exc 3, rfl⟩)).2.2.1 5

/-! ## Claim C10: `config=None` raises before the environment fallback -/

/-- Claim C10: constructing `RabbitMQ` (or calling `init_app`) with
`config = None` raises `AttributeError` while reading the configuration,
before the `MQ_EXCHANGE`/`MQ_URL` environment fallback can take effect —
for every environment, including one that defines both variables; the
environment fallback is reachable only when the config is a dict, in
which case a key that is missing or falsy in the dict resolves to the raw
environment lookup. -/
theorem config_none_attr_error :
    (∀ env : String → Option String,
      initAppConfig none env = .error .attrError) ∧
    (∀ (d : List (String × String)) (env : String → Option String)
        (k : String), truthyStr (dictGet d k) = none →
      configOrEnv (some d) env k = .ok (env k)) := by
  constructor
  · intro env
    rfl
  · intro d env k h
    simp [configOrEnv, configGet, h, Bind.bind, Except.bind, pure, Except.pure]

/-- Concrete witness for C10: with an empty config dict, the `MQ_URL`
lookup falls back to the environment variable. -/
theorem config_none_attr_error_witness :
    configOrEnv (some []) (fun _ => some "amqp://guest@localhost") "MQ_URL" =
      .ok (some "amqp://guest@localhost") :=
  config_none_attr_error.2 [] (fun _ => some "amqp://guest@localhost")
    "MQ_URL" rfl

end WPika
